import Mathlib

/-!
Verification of the defihelper-scanner queue core.

Shallow embedding of `server/src/models/Queue/Service.ts` (latest iteration,
the one carrying `retries` and `timeout`): the task data model, the selection
query, the atomic claim update, handler dispatch with outcome persistence,
`resetAndRestart`, `createBroker`, and the broker poll loop as a small-step
system. Timestamps are naturals, the store is a list of task records, and the
knex query/update pipeline is translated operation by operation.
-/

namespace Scanner

/-- Task status enumeration from `Entity.TaskStatus`: Pending, Process, Done, Error. -/
inductive TaskStatus
  | Pending
  | Process
  | Done
  | Error
deriving DecidableEq, Repr

/-- Task record persisted in the store, fields as in the source `Task` interface. -/
structure Task where
  id : Nat
  handler : String
  params : String
  startAt : Nat
  timeout : Option Nat
  status : TaskStatus
  info : String
  error : String
  retries : Nat
  createdAt : Nat
  updatedAt : Nat
deriving DecidableEq, Repr

/-- Handle options: optional include and exclude handler-name lists
(`HandleOptions.include` / `HandleOptions.exclude` in the source; `include` is a
Lean keyword, hence `incl` / `excl`). -/
structure HandleOptions where
  incl : Option (List String) := none
  excl : Option (List String) := none
deriving DecidableEq, Repr

/-- Include filter of the selection query: the source adds
`whereIn("handler", options.include)` only when `options.include` is present and
non-empty. -/
def includeFilter (l : Option (List String)) (h : String) : Bool :=
  match l with
  | some names => if names.length > 0 then names.contains h else true
  | none => true

/-- Exclude filter of the selection query: the source adds
`whereNotIn("handler", options.exclude)` only when `options.exclude` is present
and non-empty. -/
def excludeFilter (l : Option (List String)) (h : String) : Bool :=
  match l with
  | some names => if names.length > 0 then !(names.contains h) else true
  | none => true

/-- Eligibility predicate of the selection query in `QueueService.handle`:
status Pending, startAt at or before now, and the two optional handler filters. -/
def eligible (opts : HandleOptions) (now : Nat) (t : Task) : Bool :=
  t.status == TaskStatus.Pending && decide (t.startAt ≤ now)
    && includeFilter opts.incl t.handler && excludeFilter opts.excl t.handler

/-- Earliest task by `startAt`, ties resolved to the earlier list position,
modelling `orderBy("startAt", "asc").limit(1).first()` over a stable store order. -/
def minByStartAt : List Task → Option Task
  | [] => none
  | t :: ts =>
    match minByStartAt ts with
    | none => some t
    | some b => if t.startAt ≤ b.startAt then some t else some b

/-- Candidate selection of `QueueService.handle`: filter by eligibility, take the
earliest `startAt`. -/
def selectCandidate (opts : HandleOptions) (now : Nat) (tasks : List Task) : Option Task :=
  minByStartAt (tasks.filter (eligible opts now))

/-- Row predicate of the conditional claim update:
`where({ id: current.id, status: TaskStatus.Pending })`. -/
def claimMatches (taskId : Nat) (t : Task) : Bool :=
  t.id == taskId && t.status == TaskStatus.Pending

/-- Row mutation of the claim update: `update({ status: Process }).increment(retries)`. -/
def claimTask (t : Task) : Task :=
  { t with status := TaskStatus.Process, retries := t.retries + 1 }

/-- Atomic conditional claim update of `QueueService.handle`: mutates every row
matching id and Pending status, and returns the affected-row count (`lock`). -/
def claimUpdate (tasks : List Task) (taskId : Nat) : List Task × Nat :=
  (tasks.map (fun t => if claimMatches taskId t then claimTask t else t),
   tasks.countP (claimMatches taskId))

/-- Unconditional update by id: `update(v).where("id", taskId)`. -/
def updateById (tasks : List Task) (taskId : Nat) (v : Task) : List Task :=
  tasks.map (fun t => if t.id == taskId then v else t)

/-- Modelled from the spec: the Execution Context class `Process` lives in
`server/src/models/Queue/Entity.ts`, which is not among the provided sources.
Per the spec its failure operation is pure and returns the working copy of the
claimed task with status set to Error, the error field set to a string
description of the failure, and updatedAt bumped. -/
def processError (now : Nat) (working : Task) (e : String) : Task :=
  { working with status := TaskStatus.Error, error := e, updatedAt := now }

/-- Handler function type: receives the claimed task (the Execution Context's
working copy) and either returns the terminal task or fails with a description,
modelling an async function that may throw. -/
def HandlerFn : Type := Task → Except String Task

/-- Handler Registry: static mapping from handler name to handler function,
modelling the `Handlers` module namespace import. -/
def Registry : Type := List (String × HandlerFn)

/-- Lookup in the Handler Registry, modelling the property access
`Handlers[current.handler]` which yields undefined for unregistered names. -/
def lookupHandler (reg : Registry) (name : String) : Option HandlerFn :=
  (reg.find? (fun p => p.fst == name)).map Prod.snd

/-- Modelled from the spec: `hasHandler` is exported by
`server/src/models/Queue/Entity.ts`, which is not among the provided sources.
Per the spec it tests whether a handler name exists in the Handler Registry. -/
def hasHandler (reg : Registry) (name : String) : Bool :=
  (lookupHandler reg name).isSome

/-- Result of one `QueueService.handle` poll cycle: the store after the cycle,
the boolean return value, and the name of the handler function that was invoked,
if any. -/
structure HandleOutcome where
  tasks : List Task
  returned : Bool
  invoked : Option String
deriving DecidableEq, Repr

/-- Claim-and-dispatch phase of `QueueService.handle`, starting after candidate
selection. It takes the store as it stands when the claim update runs, which
under concurrent pollers may differ from the snapshot the candidate was selected
from. An unregistered handler name makes the dispatch expression throw a
TypeError inside the try block, so it is caught and persisted like any handler
failure. -/
def handleAfterSelect (reg : Registry) (now : Nat) (current : Task)
    (tasks : List Task) : HandleOutcome :=
  let locked := claimUpdate tasks current.id
  if locked.snd == 0 then
    ⟨locked.fst, false, none⟩
  else
    match lookupHandler reg current.handler with
    | none =>
      ⟨updateById locked.fst current.id
          (processError now current "TypeError: cannot read properties of undefined"),
       true, none⟩
    | some f =>
      match f current with
      | Except.ok result => ⟨updateById locked.fst current.id result, true, some current.handler⟩
      | Except.error e =>
        ⟨updateById locked.fst current.id (processError now current e), true, some current.handler⟩

/-- One poll cycle `QueueService.handle(options)`: select a candidate; if none,
return false with no writes; otherwise claim and dispatch against the same
store (the sequential, race-free execution of the two phases). -/
def handle (reg : Registry) (opts : HandleOptions) (now : Nat)
    (tasks : List Task) : HandleOutcome :=
  match selectCandidate opts now tasks with
  | none => ⟨tasks, false, none⟩
  | some current => handleAfterSelect reg now current tasks

/-- Updated record built by `QueueService.resetAndRestart`: status Pending,
startAt and updatedAt set to now, error cleared, every other field kept. -/
def resetRecord (now : Nat) (task : Task) : Task :=
  { task with
    status := TaskStatus.Pending
    startAt := now
    error := ""
    updatedAt := now }

/-- The operation `QueueService.resetAndRestart(task)`: persists the updated
record by id and returns it. -/
def resetAndRestart (now : Nat) (tasks : List Task) (task : Task) : List Task × Task :=
  let updated := resetRecord now task
  (updateById tasks updated.id updated, updated)

/-- Runtime value sitting in the `handler` slot of the broker options: the
TypeScript type is `HandleOptions | undefined`, but the guard in `createBroker`
compares `typeof options.handler` against the string tag, so the model keeps a
string alternative to reflect what the guard can observe at runtime. -/
inductive HandlerSlot
  | str (s : String)
  | opts (o : HandleOptions)
  | undef
deriving DecidableEq, Repr

/-- Broker options as passed to `createBroker` (`Partial<BrokerOptions>`). -/
structure BrokerOptionsIn where
  interval : Option Nat := none
  handler : HandlerSlot := HandlerSlot.undef
deriving DecidableEq, Repr

/-- Broker object as constructed: options merged over the default interval 1000. -/
structure Broker where
  interval : Nat
  handler : HandlerSlot
deriving DecidableEq, Repr

/-- The operation `QueueService.createBroker(options)`: throws
`Invalid queue handler` when `typeof options.handler` is the string tag and the
name is unregistered; otherwise constructs the broker. -/
def createBroker (reg : Registry) (o : BrokerOptionsIn) : Except String Broker :=
  match o.handler with
  | HandlerSlot.str s =>
    if !(hasHandler reg s) then Except.error ("Invalid queue handler " ++ s)
    else Except.ok ⟨o.interval.getD 1000, o.handler⟩
  | _ => Except.ok ⟨o.interval.getD 1000, o.handler⟩

/-- Control position of the broker's self-rescheduling loop `Broker.handle`:
at the top-of-loop started check, just after a `service.handle` call with its
result, inside the backoff sleep, or terminated. -/
inductive BrokerPhase
  | atCheck
  | afterHandle (res : Bool)
  | sleeping
  | terminated
deriving DecidableEq, Repr

/-- State of one running broker over the shared store: the `isStarted` flag, the
loop position, the store, and a clock advanced by the backoff sleep. -/
structure BrokerState where
  isStarted : Bool
  phase : BrokerPhase
  tasks : List Task
  clock : Nat
deriving DecidableEq, Repr

/-- Small-step transition of the broker loop. At the top of an iteration the
loop first observes `isStarted` and terminates when it is false; otherwise one
`service.handle` call runs to completion as a single step (the broker is
single-flow: it never issues a second call before the first resolves). A false
result enters the backoff sleep of `interval` before the next check; a true
result re-enters the check immediately. -/
def brokerStep (reg : Registry) (opts : HandleOptions) (interval : Nat)
    (s : BrokerState) : BrokerState :=
  match s.phase with
  | BrokerPhase.atCheck =>
    if !s.isStarted then { s with phase := BrokerPhase.terminated }
    else
      let r := handle reg opts s.clock s.tasks
      { s with tasks := r.tasks, phase := BrokerPhase.afterHandle r.returned }
  | BrokerPhase.afterHandle res =>
    if res then { s with phase := BrokerPhase.atCheck }
    else { s with phase := BrokerPhase.sleeping }
  | BrokerPhase.sleeping =>
    { s with clock := s.clock + interval, phase := BrokerPhase.atCheck }
  | BrokerPhase.terminated => s

/-- The operation `Broker.stop()`: clears `isStarted` and nothing else; the loop
notices at its next check. -/
def brokerStop (s : BrokerState) : BrokerState :=
  { s with isStarted := false }

/-! Helper lemmas. -/

/-- Mapping a guarded rewrite over a list in which no element satisfies the
guard leaves the list unchanged. -/
theorem map_ite_of_countP_zero (p : Task → Bool) (f : Task → Task) :
    ∀ l : List Task, l.countP p = 0 →
      l.map (fun t => if p t then f t else t) = l := by
  intro l
  induction l with
  | nil => intro _; rfl
  | cons a l ih =>
    intro h
    rw [List.countP_cons] at h
    by_cases hp : p a = true
    · simp [hp] at h
    · simp only [Bool.not_eq_true] at hp
      simp only [List.map_cons, hp, if_neg, Bool.false_eq_true, not_false_iff]
      rw [ih (by omega)]

/-- A claim update whose affected-row count is zero changes no row. -/
theorem claimUpdate_count_zero (tasks : List Task) (taskId : Nat)
    (h : (claimUpdate tasks taskId).snd = 0) :
    (claimUpdate tasks taskId).fst = tasks := by
  have h0 : tasks.countP (claimMatches taskId) = 0 := h
  simpa [claimUpdate] using map_ite_of_countP_zero (claimMatches taskId) claimTask tasks h0

/-- Sample Pending task used by concrete witnesses. -/
def sampleTaskA : Task :=
  { id := 1
    handler := "alpha"
    params := "p"
    startAt := 0
    timeout := none
    status := TaskStatus.Pending
    info := ""
    error := ""
    retries := 0
    createdAt := 0
    updatedAt := 0 }

/-- Second sample task, later startAt, other handler name. -/
def sampleTaskB : Task :=
  { sampleTaskA with id := 2, handler := "beta", startAt := 3 }

/-! Claims. -/

/-- C1: whenever a candidate was selected but the conditional claim update
(matched on id and Pending status) reports zero affected rows, the cycle returns
false, invokes no handler, and writes nothing further: the store as of the claim
attempt is returned unchanged. -/
theorem claimLost_is_idle (reg : Registry) (opts : HandleOptions) (now : Nat)
    (tasksAtSelect tasksAtClaim : List Task) (current : Task)
    (hsel : selectCandidate opts now tasksAtSelect = some current)
    (hlock : (claimUpdate tasksAtClaim current.id).snd = 0) :
    handleAfterSelect reg now current tasksAtClaim =
      ⟨tasksAtClaim, false, none⟩ := by
  unfold handleAfterSelect
  simp only [hlock, beq_self_eq_true, if_true]
  rw [claimUpdate_count_zero tasksAtClaim current.id hlock]

/-- C1 witness: the candidate is selected from a snapshot where it is Pending,
but by claim time another poller has moved it to Process, so the claim affects
zero rows and the cycle is idle. -/
theorem claimLost_is_idle_witness :
    selectCandidate {} 5 [sampleTaskA] = some sampleTaskA ∧
    (claimUpdate [{ sampleTaskA with status := TaskStatus.Process }] sampleTaskA.id).snd = 0 ∧
    handleAfterSelect [] 5 sampleTaskA [{ sampleTaskA with status := TaskStatus.Process }] =
      ⟨[{ sampleTaskA with status := TaskStatus.Process }], false, none⟩ :=
  ⟨rfl, rfl,
    claimLost_is_idle [] {} 5 [sampleTaskA]
      [{ sampleTaskA with status := TaskStatus.Process }] sampleTaskA rfl rfl⟩

/-- C4: resetAndRestart persists and returns the input record with status
Pending, startAt now, error cleared and updatedAt bumped, all other fields (in
particular retries, info, id, handler, params) untouched. -/
theorem resetAndRestart_frame (now : Nat) (tasks : List Task) (t : Task) :
    (resetAndRestart now tasks t).snd.status = TaskStatus.Pending ∧
    (resetAndRestart now tasks t).snd.startAt = now ∧
    (resetAndRestart now tasks t).snd.error = "" ∧
    (resetAndRestart now tasks t).snd.updatedAt = now ∧
    (resetAndRestart now tasks t).snd.retries = t.retries ∧
    (resetAndRestart now tasks t).snd.info = t.info ∧
    (resetAndRestart now tasks t).snd.id = t.id ∧
    (resetAndRestart now tasks t).snd.handler = t.handler ∧
    (resetAndRestart now tasks t).snd.params = t.params ∧
    (resetAndRestart now tasks t).snd.timeout = t.timeout ∧
    (resetAndRestart now tasks t).snd.createdAt = t.createdAt ∧
    (resetAndRestart now tasks t).fst =
      updateById tasks t.id ((resetAndRestart now tasks t).snd) := by
  refine ⟨rfl, rfl, rfl, rfl, rfl, rfl, rfl, rfl, rfl, rfl, rfl, rfl⟩

/-- C6: when no task in the store is eligible (empty store, future startAt, or
filtered out), handle returns false, invokes no handler, and performs zero
writes. -/
theorem handle_idle_no_writes (reg : Registry) (opts : HandleOptions) (now : Nat)
    (tasks : List Task) (h : ∀ t ∈ tasks, eligible opts now t = false) :
    handle reg opts now tasks = ⟨tasks, false, none⟩ := by
  have hf : tasks.filter (eligible opts now) = [] := by
    rw [List.filter_eq_nil_iff]
    intro a ha
    simp [h a ha]
  unfold handle selectCandidate
  rw [hf]
  rfl

/-- C6 witness: one Pending task not yet due at the current time; handle is idle
and the store is untouched. -/
theorem handle_idle_no_writes_witness :
    (∀ t ∈ [{ sampleTaskA with startAt := 10 }], eligible {} 5 t = false) ∧
    handle [] {} 5 [{ sampleTaskA with startAt := 10 }] =
      ⟨[{ sampleTaskA with startAt := 10 }], false, none⟩ :=
  ⟨by decide, handle_idle_no_writes [] {} 5 [{ sampleTaskA with startAt := 10 }] (by decide)⟩

/-- Length preservation of the claim update. -/
theorem claimUpdate_length (tasks : List Task) (taskId : Nat) :
    (claimUpdate tasks taskId).fst.length = tasks.length := by
  simp [claimUpdate]

/-- C3: on a successful claim, the row matched on id and Pending status is
rewritten, within that same conditional update, to the identical record except
status Process and retries incremented by exactly one; this holds at every such
claim of the same task, so repeated claims after failures each add one (absent
a reset). -/
theorem claim_increments_retries (tasks : List Task) (taskId : Nat) (i : Nat)
    (hi : i < tasks.length)
    (hm : claimMatches taskId (tasks.get ⟨i, hi⟩) = true) :
    (claimUpdate tasks taskId).fst.get ⟨i, by rw [claimUpdate_length]; exact hi⟩ =
      { tasks.get ⟨i, hi⟩ with
        status := TaskStatus.Process
        retries := (tasks.get ⟨i, hi⟩).retries + 1 } := by
  have hm2 : claimMatches taskId tasks[i] = true := by simpa using hm
  simp [claimUpdate, claimTask, hm2]

/-- C3 witness: a store of two tasks; claiming the first increments its retries
from 0 to 1 while flipping it to Process. -/
theorem claim_increments_retries_witness :
    claimMatches 1 ([sampleTaskA, sampleTaskB].get ⟨0, by decide⟩) = true ∧
    (claimUpdate [sampleTaskA, sampleTaskB] 1).fst.get ⟨0, by decide⟩ =
      { sampleTaskA with status := TaskStatus.Process, retries := 1 } :=
  ⟨by decide, claim_increments_retries [sampleTaskA, sampleTaskB] 1 0 (by decide) (by decide)⟩

/-- C10: a present-but-empty include or exclude list behaves exactly like an
absent one: handle gives the identical outcome on every store. -/
theorem handle_empty_filter_eq_absent (reg : Registry) (now : Nat)
    (tasks : List Task) (i e : Option (List String)) :
    handle reg { incl := some [], excl := e } now tasks =
      handle reg { incl := none, excl := e } now tasks ∧
    handle reg { incl := i, excl := some [] } now tasks =
      handle reg { incl := i, excl := none } now tasks := by
  constructor
  · have hfil : tasks.filter (eligible { incl := some [], excl := e } now) =
        tasks.filter (eligible { incl := none, excl := e } now) :=
      List.filter_congr (fun a _ => by simp [eligible, includeFilter])
    unfold handle selectCandidate
    rw [hfil]
  · have hfil : tasks.filter (eligible { incl := i, excl := some [] } now) =
        tasks.filter (eligible { incl := i, excl := none } now) :=
      List.filter_congr (fun a _ => by simp [eligible, excludeFilter])
    unfold handle selectCandidate
    rw [hfil]

/-- A selected minimum belongs to the list it was taken from. -/
theorem minByStartAt_mem : ∀ {l : List Task} {t : Task},
    minByStartAt l = some t → t ∈ l := by
  intro l
  induction l with
  | nil => intro t h; simp [minByStartAt] at h
  | cons a l ih =>
    intro t h
    rw [minByStartAt] at h
    cases hm : minByStartAt l with
    | none =>
      rw [hm] at h
      simp only [Option.some.injEq] at h
      subst h
      exact List.mem_cons_self a l
    | some b =>
      rw [hm] at h
      by_cases hc : a.startAt ≤ b.startAt
      · simp only [hc, if_true, Option.some.injEq] at h
        subst h
        exact List.mem_cons_self a l
      · simp only [hc, if_false, Option.some.injEq] at h
        subst h
        exact List.mem_cons_of_mem a (ih hm)

/-- Only the empty list has no earliest task. -/
theorem minByStartAt_eq_none : ∀ {l : List Task},
    minByStartAt l = none → l = [] := by
  intro l h
  cases l with
  | nil => rfl
  | cons a l =>
    rw [minByStartAt] at h
    cases hm : minByStartAt l with
    | none => rw [hm] at h; exact absurd h (by simp)
    | some b =>
      rw [hm] at h
      by_cases hc : a.startAt ≤ b.startAt <;> simp [hc] at h

/-- A selected minimum has the earliest startAt in its list. -/
theorem minByStartAt_min : ∀ {l : List Task} {t : Task},
    minByStartAt l = some t → ∀ u ∈ l, t.startAt ≤ u.startAt := by
  intro l
  induction l with
  | nil => intro t h; simp [minByStartAt] at h
  | cons a l ih =>
    intro t h u hu
    rw [minByStartAt] at h
    cases hm : minByStartAt l with
    | none =>
      rw [hm] at h
      simp only [Option.some.injEq] at h
      subst h
      rw [minByStartAt_eq_none hm] at hu
      rcases List.mem_singleton.mp hu with rfl
      exact Nat.le_refl _
    | some b =>
      rw [hm] at h
      by_cases hc : a.startAt ≤ b.startAt
      · simp only [hc, if_true, Option.some.injEq] at h
        subst h
        rcases List.mem_cons.mp hu with rfl | hu2
        · exact Nat.le_refl _
        · exact Nat.le_trans hc (ih hm u hu2)
      · simp only [hc, if_false, Option.some.injEq] at h
        subst h
        rcases List.mem_cons.mp hu with rfl | hu2
        · exact Nat.le_of_lt (Nat.lt_of_not_le hc)
        · exact ih hm u hu2

/-- C5 counterexample: with the include list given but empty, the selection
query applies no include condition, so a task whose handler lies in no list at
all is still selected: the claim's clause that the candidate's handler is a
member of the include list whenever that list is given fails here. -/
theorem selected_handler_notin_given_include :
    selectCandidate { incl := some [], excl := none } 5 [sampleTaskA] =
      some sampleTaskA ∧
    sampleTaskA.handler ∉ ([] : List String) :=
  ⟨rfl, by simp⟩

/-- C5 (amended: the include and exclude conditions constrain the candidate
only when the given list is non-empty): any selected candidate is a Pending
task of the store, already due, inside a given non-empty include list, outside
a given non-empty exclude list, and of minimal startAt among all eligible
tasks, so an eligible task due earlier is always selected first. -/
theorem selectCandidate_sound (opts : HandleOptions) (now : Nat)
    (tasks : List Task) (current : Task)
    (h : selectCandidate opts now tasks = some current) :
    current ∈ tasks ∧
    current.status = TaskStatus.Pending ∧
    current.startAt ≤ now ∧
    (∀ l, opts.incl = some l → l ≠ [] → current.handler ∈ l) ∧
    (∀ l, opts.excl = some l → l ≠ [] → current.handler ∉ l) ∧
    (∀ u ∈ tasks, eligible opts now u = true → current.startAt ≤ u.startAt) := by
  have hmem := minByStartAt_mem h
  have hcur := (List.mem_filter.mp hmem).2
  have hintasks := (List.mem_filter.mp hmem).1
  have hconj := hcur
  unfold eligible at hconj
  simp only [Bool.and_eq_true, beq_iff_eq, decide_eq_true_eq] at hconj
  obtain ⟨⟨⟨hst, hdue⟩, hinc⟩, hexc⟩ := hconj
  refine ⟨hintasks, hst, hdue, ?_, ?_, ?_⟩
  · intro l hl hne
    rw [hl] at hinc
    unfold includeFilter at hinc
    have hlen : 0 < l.length := List.length_pos.mpr hne
    simp only [hlen, if_pos] at hinc
    exact List.mem_of_elem_eq_true hinc
  · intro l hl hne hm
    rw [hl] at hexc
    unfold excludeFilter at hexc
    have hlen : 0 < l.length := List.length_pos.mpr hne
    simp only [hlen, if_pos, Bool.not_eq_true'] at hexc
    exact Bool.false_ne_true (hexc.symm.trans (List.elem_eq_true_of_mem hm))
  · intro u hu he
    exact minByStartAt_min h u (List.mem_filter.mpr ⟨hu, he⟩)

/-- C5 witness: two eligible tasks with distinct handlers and startAt 0 and 3;
the earlier one is selected under a non-empty include list naming both. -/
theorem selectCandidate_sound_witness :
    selectCandidate { incl := some ["alpha", "beta"], excl := some ["gamma"] } 5
      [sampleTaskB, sampleTaskA] = some sampleTaskA ∧
    (sampleTaskA ∈ [sampleTaskB, sampleTaskA] ∧
      sampleTaskA.status = TaskStatus.Pending ∧
      sampleTaskA.startAt ≤ 5 ∧
      (∀ l, (some ["alpha", "beta"] : Option (List String)) = some l → l ≠ [] →
        sampleTaskA.handler ∈ l) ∧
      (∀ l, (some ["gamma"] : Option (List String)) = some l → l ≠ [] →
        sampleTaskA.handler ∉ l) ∧
      (∀ u ∈ [sampleTaskB, sampleTaskA],
        eligible { incl := some ["alpha", "beta"], excl := some ["gamma"] } 5 u = true →
          sampleTaskA.startAt ≤ u.startAt)) :=
  ⟨by decide,
    selectCandidate_sound { incl := some ["alpha", "beta"], excl := some ["gamma"] } 5
      [sampleTaskB, sampleTaskA] sampleTaskA (by decide)⟩

/-- Sample handler that always succeeds with a Done record. -/
def doneFn : HandlerFn :=
  fun t => Except.ok { t with status := TaskStatus.Done, updatedAt := t.updatedAt + 1 }

/-- Sample handler that always fails. -/
def failFn : HandlerFn :=
  fun _ => Except.error "boom"

/-- Sample registry containing only the callCallBack handler name. -/
def sampleRegistry : Registry := [("callCallBack", doneFn)]

/-- Registry registering a failing handler under the sample task's name. -/
def regFail : Registry := [("alpha", failFn)]

/-- C2 evaluation: the construction guard compares the runtime type tag of
`options.handler` against the string tag, and the handler slot of broker
options is an object holding the include and exclude lists, never a string; so
a broker whose include list names an unregistered handler is constructed
without any failure, although the name is absent from the registry. -/
theorem createBroker_skips_list_validation :
    createBroker sampleRegistry
      { interval := none
        handler := HandlerSlot.opts { incl := some ["noSuchHandler"], excl := none } } =
      Except.ok
        ⟨1000, HandlerSlot.opts { incl := some ["noSuchHandler"], excl := none }⟩ ∧
    hasHandler sampleRegistry "noSuchHandler" = false :=
  ⟨rfl, rfl⟩

/-- C7: once the claim update affected a row, the cycle returns true no matter
how dispatch goes; and when the registered handler fails, the task is persisted
through the failure operation of the Execution Context: status Error, the error
field set to the failure description, updatedAt bumped. -/
theorem handle_persists_handler_failure (reg : Registry) (now : Nat)
    (current : Task) (tasks : List Task) (f : HandlerFn) (e : String)
    (hlock : (claimUpdate tasks current.id).snd ≠ 0) :
    (handleAfterSelect reg now current tasks).returned = true ∧
    (lookupHandler reg current.handler = some f → f current = Except.error e →
      handleAfterSelect reg now current tasks =
        ⟨updateById (claimUpdate tasks current.id).fst current.id
            (processError now current e),
         true, some current.handler⟩ ∧
      (processError now current e).status = TaskStatus.Error ∧
      (processError now current e).error = e ∧
      (processError now current e).updatedAt = now) := by
  have hbeq : ((claimUpdate tasks current.id).snd == 0) = false :=
    beq_eq_false_iff_ne.mpr hlock
  constructor
  · cases hg : lookupHandler reg current.handler with
    | none => simp [handleAfterSelect, hbeq, hg]
    | some g =>
      cases hgc : g current with
      | ok r => simp [handleAfterSelect, hbeq, hg, hgc]
      | error e2 => simp [handleAfterSelect, hbeq, hg, hgc]
  · intro hl hf
    simp [handleAfterSelect, hbeq, hl, hf, processError]

/-- C7 witness: a Pending task whose registered handler fails with boom; the
claim affects one row, the cycle returns true, and the persisted record carries
status Error, the message, and the bumped timestamp. -/
theorem handle_persists_handler_failure_witness :
    (claimUpdate [sampleTaskA] sampleTaskA.id).snd ≠ 0 ∧
    (handleAfterSelect regFail 5 sampleTaskA [sampleTaskA]).returned = true ∧
    (handleAfterSelect regFail 5 sampleTaskA [sampleTaskA] =
      ⟨updateById (claimUpdate [sampleTaskA] sampleTaskA.id).fst sampleTaskA.id
          (processError 5 sampleTaskA "boom"),
       true, some sampleTaskA.handler⟩ ∧
      (processError 5 sampleTaskA "boom").status = TaskStatus.Error ∧
      (processError 5 sampleTaskA "boom").error = "boom" ∧
      (processError 5 sampleTaskA "boom").updatedAt = 5) :=
  ⟨by decide,
   (handle_persists_handler_failure regFail 5 sampleTaskA [sampleTaskA] failFn "boom"
      (by decide)).1,
   (handle_persists_handler_failure regFail 5 sampleTaskA [sampleTaskA] failFn "boom"
      (by decide)).2 rfl rfl⟩

/-- C8: a claimed task whose handler name resolves to nothing in the registry
does not propagate a failure out of the cycle: the dispatch expression throws
inside the try block, the catch persists the task with a per-task Error outcome
through the failure operation, and handle still returns normally (with true). -/
theorem unknown_handler_contained (reg : Registry) (now : Nat)
    (current : Task) (tasks : List Task)
    (hl : lookupHandler reg current.handler = none)
    (hlock : (claimUpdate tasks current.id).snd ≠ 0) :
    handleAfterSelect reg now current tasks =
      ⟨updateById (claimUpdate tasks current.id).fst current.id
          (processError now current "TypeError: cannot read properties of undefined"),
       true, none⟩ ∧
    (processError now current
      "TypeError: cannot read properties of undefined").status = TaskStatus.Error := by
  have hbeq : ((claimUpdate tasks current.id).snd == 0) = false :=
    beq_eq_false_iff_ne.mpr hlock
  simp [handleAfterSelect, hbeq, hl, processError]

/-- C8 witness: empty registry, one Pending task; the cycle persists an Error
record for it and returns. -/
theorem unknown_handler_contained_witness :
    lookupHandler [] sampleTaskA.handler = none ∧
    (claimUpdate [sampleTaskA] sampleTaskA.id).snd ≠ 0 ∧
    (handleAfterSelect [] 5 sampleTaskA [sampleTaskA] =
      ⟨updateById (claimUpdate [sampleTaskA] sampleTaskA.id).fst sampleTaskA.id
          (processError 5 sampleTaskA "TypeError: cannot read properties of undefined"),
       true, none⟩ ∧
      (processError 5 sampleTaskA
        "TypeError: cannot read properties of undefined").status = TaskStatus.Error) :=
  ⟨rfl, by decide,
   unknown_handler_contained [] 5 sampleTaskA [sampleTaskA] rfl (by decide)⟩

/-- C9: the loop observes isStarted first and terminates when it is cleared,
without touching the store; when started, exactly one handle call runs as a
single uninterruptible step; a false result sleeps one interval before the next
check while a true result re-enters the check immediately; and stop only clears
isStarted, preserving the loop position and the store, so a completed or
pending handle outcome is never undone or interrupted. -/
theorem broker_loop_cooperative (reg : Registry) (opts : HandleOptions)
    (interval : Nat) (s : BrokerState) :
    (s.phase = BrokerPhase.atCheck → s.isStarted = false →
      brokerStep reg opts interval s = { s with phase := BrokerPhase.terminated }) ∧
    (s.phase = BrokerPhase.atCheck → s.isStarted = true →
      brokerStep reg opts interval s =
        { s with
          tasks := (handle reg opts s.clock s.tasks).tasks
          phase := BrokerPhase.afterHandle (handle reg opts s.clock s.tasks).returned }) ∧
    (s.phase = BrokerPhase.afterHandle false →
      brokerStep reg opts interval s = { s with phase := BrokerPhase.sleeping } ∧
      brokerStep reg opts interval (brokerStep reg opts interval s) =
        { s with phase := BrokerPhase.atCheck, clock := s.clock + interval }) ∧
    (s.phase = BrokerPhase.afterHandle true →
      brokerStep reg opts interval s = { s with phase := BrokerPhase.atCheck }) ∧
    (brokerStop s = { s with isStarted := false }) ∧
    (∀ res, s.phase = BrokerPhase.afterHandle res →
      (brokerStop s).phase = BrokerPhase.afterHandle res ∧
      (brokerStop s).tasks = s.tasks) := by
  refine ⟨?_, ?_, ?_, ?_, rfl, ?_⟩
  · intro hp hs
    unfold brokerStep
    rw [hp, hs]
    rfl
  · intro hp hs
    unfold brokerStep
    rw [hp, hs]
    rfl
  · intro hp
    constructor
    · unfold brokerStep
      rw [hp]
      rfl
    · unfold brokerStep
      rw [hp]
      rfl
  · intro hp
    unfold brokerStep
    rw [hp]
    rfl
  · intro res hp
    exact ⟨by rw [brokerStop]; exact hp, rfl⟩

/-- C9 witness: concrete broker states exercise each loop transition: a stopped
check terminates, a started check runs handle, a false result sleeps exactly
one interval of 7 before the next check, a true result loops immediately, and
stop only clears the flag. -/
theorem broker_loop_cooperative_witness :
    (brokerStep [] {} 7 ⟨false, BrokerPhase.atCheck, [], 0⟩ =
      ⟨false, BrokerPhase.terminated, [], 0⟩) ∧
    (brokerStep [] {} 7 ⟨true, BrokerPhase.afterHandle false, [], 0⟩ =
      ⟨true, BrokerPhase.sleeping, [], 0⟩ ∧
     brokerStep [] {} 7 (brokerStep [] {} 7 ⟨true, BrokerPhase.afterHandle false, [], 0⟩) =
      ⟨true, BrokerPhase.atCheck, [], 7⟩) ∧
    (brokerStep [] {} 7 ⟨true, BrokerPhase.afterHandle true, [], 0⟩ =
      ⟨true, BrokerPhase.atCheck, [], 0⟩) ∧
    (brokerStop ⟨true, BrokerPhase.afterHandle true, [sampleTaskA], 3⟩ =
      ⟨false, BrokerPhase.afterHandle true, [sampleTaskA], 3⟩) :=
  ⟨(broker_loop_cooperative [] {} 7 ⟨false, BrokerPhase.atCheck, [], 0⟩).1 rfl rfl,
   (broker_loop_cooperative [] {} 7 ⟨true, BrokerPhase.afterHandle false, [], 0⟩).2.2.1 rfl,
   (broker_loop_cooperative [] {} 7 ⟨true, BrokerPhase.afterHandle true, [], 0⟩).2.2.2.1 rfl,
   (broker_loop_cooperative [] {} 7
      ⟨true, BrokerPhase.afterHandle true, [sampleTaskA], 3⟩).2.2.2.2.1⟩

end Scanner
